import Mathlib

/-!
Verification of the EOSP-Threadpool core (src/Threadpool.hpp) against its
natural-language specification.

The C++ class is embedded shallowly:

* machine integers: priorities are `int` (modelled as `Int`); counters are
  `unsigned int` (modelled as `Nat`, matching the truncated subtraction of
  the source only at points where the counter is positive);
* a task's bound callable either returns a value or throws; both are
  modelled by `Except Int Int` (error payload, value payload);
* `std::promise` / `std::future` result channels are modelled by channel
  ids; a channel is complete once the `channels` map holds its outcome;
* thread identities (`std::thread::id`) are modelled by `Nat`;
* the single mutex / condition-variable protocol of `tryToWork` is
  additionally instrumented as an event trace (`tryToWorkTrace`) that
  mirrors the statement order of the source, so that lock-discipline and
  counter-pairing properties can be stated;
* the worker loop and the waiting loop are given explicit fuel, since the
  C++ loops run until the stop flag is observed.
-/

instance : DecidableEq (Except Int Int) := fun a b =>
  match a, b with
  | Except.ok v, Except.ok w => decidable_of_iff (v = w) (by simp)
  | Except.ok _, Except.error _ => isFalse (fun hc => Except.noConfusion hc)
  | Except.error _, Except.ok _ => isFalse (fun hc => Except.noConfusion hc)
  | Except.error e, Except.error f => decidable_of_iff (e = f) (by simp)

/-- A task entry of the queue: `std::pair<int, std::function<void()>>`.
The stored closure invokes the packaged task, so the embedding records
which result channel the closure completes (`chan`) and the outcome the
bound callable produces when invoked (`action`). -/
structure TaskEntry where
  priority : Int
  chan : Nat
  action : Except Int Int
deriving DecidableEq, Repr

/-- `ThreadPool::comparePriority` (Threadpool.hpp lines 140-146):
`p1.first < p2.first`, the strict-weak-order handed to
`std::priority_queue`, which therefore serves the greatest priority
first. -/
def comparePriority (p1 p2 : TaskEntry) : Bool :=
  decide (p1.priority < p2.priority)

/-- `taskQueue.top()`: an element that is maximal for `comparePriority`.
`std::priority_queue` does not specify which maximal element is served
when priorities tie; the embedding fixes one canonical choice. -/
def pqTop : List TaskEntry → Option TaskEntry
  | [] => none
  | t :: ts =>
    match pqTop ts with
    | none => some t
    | some m => if comparePriority t m then some m else some t

/-- `taskQueue.pop()`: removes the element `top()` returns.  Popping an
empty queue is undefined in C++ and unreachable in the source (guarded by
the `empty()` check); the embedding leaves the queue unchanged there. -/
def pqPop (q : List TaskEntry) : List TaskEntry :=
  match pqTop q with
  | none => q
  | some t => q.erase t

/-- `taskQueue.emplace(...)`: multiset insertion. -/
def pqPush (t : TaskEntry) (q : List TaskEntry) : List TaskEntry :=
  t :: q

/-- The mutable state of a `ThreadPool` object. `workers` is the vector of
worker threads (represented by their ids), `recursionMap` is
`RecursionMap` (its `operator[]` default-inserts `0`, so the embedding
uses a total map defaulting to `0`), `channels` maps a result-channel id
to its outcome once the channel has been completed, and `nextChan` is the
id the next created channel receives. -/
structure PoolState where
  stop : Bool
  maxRecursion : Nat
  threadNumber : Nat
  workers : List Nat
  taskQueue : List TaskEntry
  recursionMap : Nat → Nat
  channels : Nat → Option (Except Int Int)
  nextChan : Nat

/-- `ThreadPool::ThreadPool` (lines 17-30): `threadNumber = thread`, and
if that is `0` it is replaced by `std::thread::hardware_concurrency()`
(passed in as `hc`, since it is host-reported; the C++ standard allows it
to report `0`).  `thread` of the default-constructed call is itself
`hardware_concurrency()`.  Workers are created and the recursion map is
filled with zeros (worker ids and the constructing thread). -/
def mkPool (thread hc maxRecursionDepth : Nat) : PoolState :=
  let n := if thread = 0 then hc else thread
  { stop := false
    maxRecursion := maxRecursionDepth
    threadNumber := n
    workers := List.range n
    taskQueue := []
    recursionMap := fun _ => 0
    channels := fun _ => none
    nextChan := 0 }

/-- `~ThreadPool` (lines 32-41), first statement: `stop = true`.  The
subsequent `notify_all` and the joins do not change the embedded state. -/
def destructorBegin (s : PoolState) : PoolState :=
  { s with stop := true }

/-- `RecursionMap[std::this_thread::get_id()]++` (line 122). -/
def incrRec (tid : Nat) (s : PoolState) : PoolState :=
  { s with recursionMap := fun x => if x = tid then s.recursionMap x + 1 else s.recursionMap x }

/-- `RecursionMap[std::this_thread::get_id()]--` (line 124).  The source
counter is `unsigned`; at this line it has just been incremented, so the
truncated `Nat` subtraction agrees with the source. -/
def decrRec (tid : Nat) (s : PoolState) : PoolState :=
  { s with recursionMap := fun x => if x = tid then s.recursionMap x - 1 else s.recursionMap x }

/-- `task()` (line 123): invoking the stored closure runs the
`std::packaged_task`, which runs the bound callable and stores its value
or its escaped exception into the shared state of the task's channel; the
invocation itself never throws on the executing thread. -/
def execTask (s : PoolState) (t : TaskEntry) : PoolState :=
  { s with channels := fun c => if c = t.chan then some t.action else s.channels c }

/-- Result of one `tryToWork` call, as observed by its caller. -/
inductive TryOutcome where
  | stopped
  | waited
  | executed (t : TaskEntry)
deriving DecidableEq, Repr

/-- `ThreadPool::tryToWork` (lines 106-129), called with the queue lock
held: if `stop`, return at once; if the queue is empty, wait on the
condition variable and return; otherwise pop the top task, unlock,
increment the calling thread's recursion counter, run the task, decrement
the counter, then re-lock briefly and notify. -/
def tryToWork (tid : Nat) (s : PoolState) : PoolState × TryOutcome :=
  if s.stop then
    (s, TryOutcome.stopped)
  else
    match pqTop s.taskQueue with
    | none => (s, TryOutcome.waited)
    | some t =>
      (decrRec tid (execTask (incrRec tid { s with taskQueue := pqPop s.taskQueue }) t),
       TryOutcome.executed t)

/-- Events of the locking protocol around one `tryToWork` call. -/
inductive Ev where
  | lock
  | unlock
  | wait
  | pop (t : TaskEntry)
  | incr (tid : Nat)
  | exec (t : TaskEntry)
  | decr (tid : Nat)
  | notify
deriving DecidableEq, Repr

/-- The sequence of lock and work events of one task-execution attempt, in
the statement order of the source.  The leading `lock` is the caller's
acquisition (`workerLoop` line 135, `waitForTask` line 95).  Stop branch:
the caller's scope releases the lock.  Empty branch: `cv.wait` (which
releases and re-acquires internally) and the caller's release.  Pop
branch: pop under the lock, explicit `lock.unlock()` (line 120),
increment, run, decrement, then the `notifyLock` guard and `notify_all`
(lines 126-127) and its release. -/
def tryToWorkTrace (tid : Nat) (s : PoolState) : List Ev :=
  if s.stop then
    [Ev.lock, Ev.unlock]
  else
    match pqTop s.taskQueue with
    | none => [Ev.lock, Ev.wait, Ev.unlock]
    | some t =>
      [Ev.lock, Ev.pop t, Ev.unlock,
       Ev.incr tid, Ev.exec t, Ev.decr tid,
       Ev.lock, Ev.notify, Ev.unlock]

/-- How many times the store mutex is held after a prefix of events. -/
def lockDepth (es : List Ev) : Nat :=
  es.foldl
    (fun d e =>
      match e with
      | Ev.lock => d + 1
      | Ev.unlock => d - 1
      | _ => d)
    0

/-- A `std::future` as returned by `addTask`: either default-constructed
(no shared state) or backed by a result channel. -/
inductive Future where
  | invalid
  | chan (c : Nat)
deriving DecidableEq, Repr

/-- How a call to `addTask` finishes: returning a future normally, or an
exception of the bound callable propagating out of the call itself. -/
inductive AddResult where
  | ret (fut : Future)
  | thrown (e : Int)
deriving DecidableEq, Repr

/-- `ThreadPool::addTask(int priority, F f, Args args)` (lines 50-88),
called by thread `tid` with a bound callable whose invocation outcome is
`act`:
* if `stop`, return a default-constructed future (line 55-56);
* if the calling thread's recursion count is below `maxRecursion`, wrap
  the callable in a packaged task, enqueue the pair, notify, and return
  the channel's (pending) future (lines 58-72);
* otherwise execute directly (lines 74-87): `result.set_value(f(args...))`
  with a plain `std::promise` and no try/catch, so a value is stored into
  a fresh, immediately-complete channel, while a thrown exception escapes
  the `addTask` call itself and the local promise (never handed out) is
  abandoned. -/
def addTask (priority : Int) (tid : Nat) (act : Except Int Int) (s : PoolState) :
    PoolState × AddResult :=
  if s.stop then
    (s, AddResult.ret Future.invalid)
  else if s.recursionMap tid < s.maxRecursion then
    ({ s with
        taskQueue := pqPush { priority := priority, chan := s.nextChan, action := act } s.taskQueue
        nextChan := s.nextChan + 1 },
     AddResult.ret (Future.chan s.nextChan))
  else
    match act with
    | Except.ok v =>
      ({ s with
          channels := fun c => if c = s.nextChan then some (Except.ok v) else s.channels c
          nextChan := s.nextChan + 1 },
       AddResult.ret (Future.chan s.nextChan))
    | Except.error e => (s, AddResult.thrown e)

/-- `ThreadPool::addTask(F f, Args args)` (lines 43-48): the overload
without a priority uses priority `0`. -/
def addTaskNoPriority (tid : Nat) (act : Except Int Int) (s : PoolState) :
    PoolState × AddResult :=
  addTask 0 tid act s

/-- `fut.wait_for(0s) == std::future_status::ready` (line 96). -/
def futReady (s : PoolState) : Future → Bool
  | Future.invalid => false
  | Future.chan c => (s.channels c).isSome

/-- What `fut.get()` delivers to the caller once ready. -/
inductive WaitResult where
  | value (v : Int)
  | raised (e : Int)
  | sentinel
  | starved
deriving DecidableEq, Repr

/-- `fut.get()` (line 97): the stored value, or the stored exception
re-thrown to the retriever.  The fallthrough cases are unreachable under
the readiness guard of the source. -/
def futGet (s : PoolState) (fut : Future) : WaitResult :=
  match fut with
  | Future.invalid => WaitResult.sentinel
  | Future.chan c =>
    match s.channels c with
    | some (Except.ok v) => WaitResult.value v
    | some (Except.error e) => WaitResult.raised e
    | none => WaitResult.sentinel

/-- `ThreadPool::waitForTask` (lines 90-102): while the stop flag is
unset, take the lock; if the future is ready return `fut.get()`;
otherwise run one `tryToWork` attempt and loop.  When the stop flag is
observed, fall out of the loop and return `static_cast<T>(NULL)`, modelled
by the `sentinel` result.  `starved` marks fuel exhaustion of the
embedding (the source would still be looping). -/
def waitForTask : Nat → Nat → Future → PoolState → PoolState × WaitResult
  | 0, _, _, s => (s, WaitResult.starved)
  | fuel + 1, tid, fut, s =>
    if s.stop then
      (s, WaitResult.sentinel)
    else if futReady s fut then
      (s, futGet s fut)
    else
      waitForTask fuel tid fut (tryToWork tid s).1

/-- `ThreadPool::workerLoop` (lines 131-138) with fuel: while the stop
flag is unset, take the lock and call `tryToWork`.  Returns the final
state and the tasks this worker executed, in order. -/
def workerLoop : Nat → Nat → PoolState → PoolState × List TaskEntry
  | 0, _, s => (s, [])
  | fuel + 1, tid, s =>
    if s.stop then
      (s, [])
    else
      match tryToWork tid s with
      | (s1, TryOutcome.executed t) =>
        let r := workerLoop fuel tid s1
        (r.1, t :: r.2)
      | (s1, _) =>
        workerLoop fuel tid s1

/-! ### Auxiliary facts about the priority queue and `tryToWork` -/

theorem pqTop_of_ne_nil {q : List TaskEntry} (h : q ≠ []) : ∃ t, pqTop q = some t := by
  cases q with
  | nil => exact absurd rfl h
  | cons a l =>
    simp only [pqTop]
    cases pqTop l with
    | none => exact ⟨a, rfl⟩
    | some m => by_cases hc : comparePriority a m <;> simp [hc]

theorem pqTop_eq_none {q : List TaskEntry} (h : pqTop q = none) : q = [] := by
  cases q with
  | nil => rfl
  | cons a l =>
    exfalso
    rcases pqTop_of_ne_nil (q := a :: l) (by simp) with ⟨t, ht⟩
    rw [ht] at h
    cases h

theorem pqTop_mem {q : List TaskEntry} {t : TaskEntry} (h : pqTop q = some t) : t ∈ q := by
  induction q generalizing t with
  | nil => simp [pqTop] at h
  | cons a l ih =>
    simp only [pqTop] at h
    split at h
    · cases h
      exact List.mem_cons_self _ _
    · rename_i m hm
      split at h
      · injection h with h2
        subst h2
        exact List.mem_cons_of_mem _ (ih hm)
      · cases h
        exact List.mem_cons_self _ _

theorem pqTop_max {q : List TaskEntry} {t : TaskEntry} (h : pqTop q = some t) :
    ∀ u ∈ q, u.priority ≤ t.priority := by
  induction q generalizing t with
  | nil => simp [pqTop] at h
  | cons a l ih =>
    simp only [pqTop] at h
    split at h
    · rename_i hm
      cases h
      have hl : l = [] := pqTop_eq_none hm
      subst hl
      intro u hu
      rcases List.mem_singleton.mp hu with rfl
      exact le_refl _
    · rename_i m hm
      split at h
      · rename_i hc
        have h2 : m = t := Option.some.inj h
        have hlt : a.priority < m.priority := by
          simpa [comparePriority] using hc
        rw [← h2]
        intro u hu
        rcases List.mem_cons.mp hu with rfl | hu
        · exact le_of_lt hlt
        · exact ih hm u hu
      · rename_i hc
        have h2 : a = t := Option.some.inj h
        have hle : m.priority ≤ a.priority := by
          simpa [comparePriority, not_lt] using hc
        rw [← h2]
        intro u hu
        rcases List.mem_cons.mp hu with rfl | hu
        · exact le_refl _
        · exact le_trans (ih hm u hu) hle

theorem tryToWork_executed_inv {tid : Nat} {s : PoolState} {t : TaskEntry}
    (h : (tryToWork tid s).2 = TryOutcome.executed t) :
    s.stop = false ∧ pqTop s.taskQueue = some t := by
  unfold tryToWork at h
  split at h
  · simp at h
  · rename_i hs
    split at h
    · simp at h
    · rename_i m hm
      simp only at h
      cases h
      exact ⟨Bool.not_eq_true _ ▸ (by simpa using hs), hm⟩

theorem tryToWork_pop_eq {tid : Nat} {s : PoolState} {t : TaskEntry}
    (hs : s.stop = false) (hm : pqTop s.taskQueue = some t) :
    tryToWork tid s =
      (decrRec tid (execTask (incrRec tid { s with taskQueue := pqPop s.taskQueue }) t),
       TryOutcome.executed t) := by
  unfold tryToWork
  rw [hs]
  simp only [Bool.false_eq_true, if_false, hm]

/-! ### Concrete pool states used to instantiate the theorems -/

def sampleQueue : List TaskEntry :=
  [{ priority := 1, chan := 0, action := Except.ok 10 },
   { priority := 5, chan := 1, action := Except.ok 20 },
   { priority := 3, chan := 2, action := Except.error 7 }]

def topEntry : TaskEntry := { priority := 5, chan := 1, action := Except.ok 20 }

def sampleState : PoolState :=
  { stop := false
    maxRecursion := 5
    threadNumber := 2
    workers := [0, 1]
    taskQueue := sampleQueue
    recursionMap := fun _ => 0
    channels := fun _ => none
    nextChan := 3 }

def readyState : PoolState :=
  { sampleState with channels := fun c => if c = 0 then some (Except.ok 7) else none }

def deepState : PoolState :=
  { sampleState with recursionMap := fun _ => 5 }

def inlineState : PoolState :=
  { stop := false
    maxRecursion := 0
    threadNumber := 1
    workers := [0]
    taskQueue := []
    recursionMap := fun _ => 0
    channels := fun _ => none
    nextChan := 0 }

def bugEntry : TaskEntry := { priority := 0, chan := 0, action := Except.error 42 }

/-! ### The claims -/

/-- C1: a task-execution attempt always removes an entry of maximal
priority among those currently stored.  Whenever `tryToWork` pops and
runs an entry `t`, that entry was stored, every stored entry has priority
at most `t.priority`, and for any two stored entries whose priorities are
strictly ordered the removed entry is never the lower-priority one. -/
theorem c1_pop_removes_max_priority (tid : Nat) (s : PoolState) (t : TaskEntry)
    (h : (tryToWork tid s).2 = TryOutcome.executed t) :
    t ∈ s.taskQueue ∧
    (∀ u ∈ s.taskQueue, u.priority ≤ t.priority) ∧
    ∀ e1 ∈ s.taskQueue, ∀ e2 ∈ s.taskQueue, e2.priority < e1.priority → t ≠ e2 := by
  obtain ⟨hs, hm⟩ := tryToWork_executed_inv h
  refine ⟨pqTop_mem hm, pqTop_max hm, ?_⟩
  intro e1 he1 e2 he2 hlt heq
  have h1 : e1.priority ≤ t.priority := pqTop_max hm e1 he1
  rw [heq] at h1
  exact absurd (lt_of_le_of_lt h1 hlt) (lt_irrefl _)

/-- Witness for C1: in a three-entry queue with priorities 1, 5, 3 the
attempt removes the entry with priority 5. -/
theorem c1_witness :
    topEntry ∈ sampleState.taskQueue ∧
    (∀ u ∈ sampleState.taskQueue, u.priority ≤ topEntry.priority) ∧
    ∀ e1 ∈ sampleState.taskQueue, ∀ e2 ∈ sampleState.taskQueue,
      e2.priority < e1.priority → topEntry ≠ e2 :=
  c1_pop_removes_max_priority 0 sampleState topEntry (by decide)

/-- C7: for every task-execution attempt that removes an entry, the
executing thread's recursion counter is incremented immediately before
the action runs and decremented immediately after (events 3, 4, 5 of the
attempt's trace are exactly incr, exec, decr for that thread), and the
counter — indeed the whole recursion map — has the same value after the
attempt as before it. -/
theorem c7_recursion_counter_paired (tid : Nat) (s : PoolState) (t : TaskEntry)
    (h : (tryToWork tid s).2 = TryOutcome.executed t) :
    (∀ x, (tryToWork tid s).1.recursionMap x = s.recursionMap x) ∧
    (incrRec tid { s with taskQueue := pqPop s.taskQueue }).recursionMap tid
      = s.recursionMap tid + 1 ∧
    (tryToWorkTrace tid s)[3]? = some (Ev.incr tid) ∧
    (tryToWorkTrace tid s)[4]? = some (Ev.exec t) ∧
    (tryToWorkTrace tid s)[5]? = some (Ev.decr tid) := by
  obtain ⟨hs, hm⟩ := tryToWork_executed_inv h
  rw [tryToWork_pop_eq hs hm]
  refine ⟨?_, by simp [incrRec], ?_, ?_, ?_⟩
  · intro x
    by_cases hx : x = tid <;> simp [decrRec, execTask, incrRec, hx]
  all_goals simp [tryToWorkTrace, hs, hm]

/-- Witness for C7 at the concrete three-entry pool. -/
theorem c7_witness :
    (∀ x, (tryToWork 0 sampleState).1.recursionMap x = sampleState.recursionMap x) ∧
    (incrRec 0 { sampleState with taskQueue := pqPop sampleState.taskQueue }).recursionMap 0
      = sampleState.recursionMap 0 + 1 ∧
    (tryToWorkTrace 0 sampleState)[3]? = some (Ev.incr 0) ∧
    (tryToWorkTrace 0 sampleState)[4]? = some (Ev.exec topEntry) ∧
    (tryToWorkTrace 0 sampleState)[5]? = some (Ev.decr 0) :=
  c7_recursion_counter_paired 0 sampleState topEntry (by decide)

/-- C9: the task-store lock is never held while a task's action executes.
At every exec event of a task-execution attempt's trace the mutex hold
count over the preceding events is zero, and the lock is re-acquired only
by a strictly later event of the attempt. -/
theorem tryToWorkTrace_stop {tid : Nat} {s : PoolState} (hs : s.stop = true) :
    tryToWorkTrace tid s = [Ev.lock, Ev.unlock] := by
  unfold tryToWorkTrace
  rw [if_pos hs]

theorem tryToWorkTrace_wait {tid : Nat} {s : PoolState}
    (hs : s.stop = false) (hm : pqTop s.taskQueue = none) :
    tryToWorkTrace tid s = [Ev.lock, Ev.wait, Ev.unlock] := by
  unfold tryToWorkTrace
  rw [hs]
  simp only [Bool.false_eq_true, if_false, hm]

theorem tryToWorkTrace_pop {tid : Nat} {s : PoolState} {t : TaskEntry}
    (hs : s.stop = false) (hm : pqTop s.taskQueue = some t) :
    tryToWorkTrace tid s =
      [Ev.lock, Ev.pop t, Ev.unlock,
       Ev.incr tid, Ev.exec t, Ev.decr tid,
       Ev.lock, Ev.notify, Ev.unlock] := by
  unfold tryToWorkTrace
  rw [hs]
  simp only [Bool.false_eq_true, if_false, hm]

theorem c9_lock_not_held_during_execution (tid : Nat) (s : PoolState) (i : Nat) (t : TaskEntry)
    (h : (tryToWorkTrace tid s)[i]? = some (Ev.exec t)) :
    lockDepth ((tryToWorkTrace tid s).take i) = 0 ∧
    ∃ j, i < j ∧ (tryToWorkTrace tid s)[j]? = some Ev.lock := by
  by_cases hs : s.stop = true
  · rw [tryToWorkTrace_stop hs] at h
    rcases i with _ | _ | i <;> simp_all
  · rw [Bool.not_eq_true] at hs
    cases hm : pqTop s.taskQueue with
    | none =>
      rw [tryToWorkTrace_wait hs hm] at h
      rcases i with _ | _ | _ | i <;> simp_all
    | some m =>
      rw [tryToWorkTrace_pop hs hm] at h ⊢
      by_cases hi : i = 4
      · subst hi
        exact ⟨rfl, 6, by omega, rfl⟩
      · exfalso
        rcases i with _ | _ | _ | _ | _ | _ | _ | _ | _ | i <;> simp_all

/-- Witness for C9: the exec event of the concrete attempt sits at index
4 of its trace, with the lock released before it and re-taken at index
6. -/
theorem c9_witness :
    lockDepth ((tryToWorkTrace 0 sampleState).take 4) = 0 ∧
    ∃ j, 4 < j ∧ (tryToWorkTrace 0 sampleState)[j]? = some Ev.lock :=
  c9_lock_not_held_during_execution 0 sampleState 4 topEntry (by decide)

/-- C10: frame property of a successful pop.  On a non-stopped pool with a
non-empty store, one task-execution attempt executes exactly one stored
entry of maximal priority; the store before the attempt is, as a
multiset, that entry plus the store after it (so every other entry, with
its priority and action, is untouched); and the stop flag, the worker
set, the worker count, the recursion bound and the recursion counters of
all other threads are unchanged. -/
theorem c10_pop_frame (tid : Nat) (s : PoolState)
    (hs : s.stop = false) (hne : s.taskQueue ≠ []) :
    ∃ t, (tryToWork tid s).2 = TryOutcome.executed t ∧
      t ∈ s.taskQueue ∧
      (∀ u ∈ s.taskQueue, u.priority ≤ t.priority) ∧
      s.taskQueue.Perm (t :: (tryToWork tid s).1.taskQueue) ∧
      (tryToWork tid s).1.stop = s.stop ∧
      (tryToWork tid s).1.workers = s.workers ∧
      (tryToWork tid s).1.threadNumber = s.threadNumber ∧
      (tryToWork tid s).1.maxRecursion = s.maxRecursion ∧
      ∀ x, x ≠ tid → (tryToWork tid s).1.recursionMap x = s.recursionMap x := by
  obtain ⟨t, hm⟩ := pqTop_of_ne_nil hne
  have hmem : t ∈ s.taskQueue := pqTop_mem hm
  rw [tryToWork_pop_eq hs hm]
  refine ⟨t, rfl, hmem, pqTop_max hm, ?_, ?_, ?_, ?_, ?_, ?_⟩
  · simp only [decrRec, execTask, incrRec, pqPop, hm]
    exact List.perm_cons_erase hmem
  · simp [decrRec, execTask, incrRec, hs]
  · simp [decrRec, execTask, incrRec]
  · simp [decrRec, execTask, incrRec]
  · simp [decrRec, execTask, incrRec]
  · intro x hx
    simp [decrRec, execTask, incrRec, hx]

/-- Witness for C10 at the concrete three-entry pool. -/
theorem c10_witness :
    ∃ t, (tryToWork 1 sampleState).2 = TryOutcome.executed t ∧
      t ∈ sampleState.taskQueue ∧
      (∀ u ∈ sampleState.taskQueue, u.priority ≤ t.priority) ∧
      sampleState.taskQueue.Perm (t :: (tryToWork 1 sampleState).1.taskQueue) ∧
      (tryToWork 1 sampleState).1.stop = sampleState.stop ∧
      (tryToWork 1 sampleState).1.workers = sampleState.workers ∧
      (tryToWork 1 sampleState).1.threadNumber = sampleState.threadNumber ∧
      (tryToWork 1 sampleState).1.maxRecursion = sampleState.maxRecursion ∧
      ∀ x, x ≠ 1 → (tryToWork 1 sampleState).1.recursionMap x = sampleState.recursionMap x :=
  c10_pop_frame 1 sampleState rfl (by decide)

/-- C4: a call to `addTask` after the stop flag is set returns a
default-constructed future and leaves the whole pool state — in
particular the task store and the result channels — unchanged, so the
action is neither enqueued nor executed inline. -/
theorem c4_addTask_after_stop (priority : Int) (tid : Nat) (act : Except Int Int)
    (s : PoolState) (hs : s.stop = true) :
    addTask priority tid act s = (s, AddResult.ret Future.invalid) := by
  unfold addTask
  rw [if_pos hs]

/-- Witness for C4 on a concrete stopped pool. -/
theorem c4_witness :
    addTask 3 0 (Except.ok 1) (destructorBegin sampleState)
      = (destructorBegin sampleState, AddResult.ret Future.invalid) :=
  c4_addTask_after_stop 3 0 (Except.ok 1) (destructorBegin sampleState) rfl

/-- C5: `waitForTask` tests the stop flag before readiness.  On a stopped
pool it returns the sentinel result at once — even for an
already-complete future — and on a non-stopped pool with a ready future
it returns `fut.get()` (the stored value, or the stored failure re-raised
to the retriever) without touching the pool state. -/
theorem c5_waitForTask_stop_then_ready (fuel tid : Nat) (fut : Future) (s : PoolState) :
    (s.stop = true → waitForTask (fuel + 1) tid fut s = (s, WaitResult.sentinel)) ∧
    (s.stop = false → futReady s fut = true →
      waitForTask (fuel + 1) tid fut s = (s, futGet s fut)) := by
  constructor
  · intro hs
    unfold waitForTask
    rw [if_pos hs]
  · intro hs hr
    unfold waitForTask
    rw [hs]
    simp only [Bool.false_eq_true, if_false, hr, if_true]

/-- Witness for C5: a stopped pool holding a ready future still yields the
sentinel, and a running pool with a ready channel yields its value. -/
theorem c5_witness :
    waitForTask 1 0 (Future.chan 0) (destructorBegin readyState)
      = (destructorBegin readyState, WaitResult.sentinel) ∧
    waitForTask 1 0 (Future.chan 0) readyState
      = (readyState, futGet readyState (Future.chan 0)) :=
  ⟨(c5_waitForTask_stop_then_ready 0 0 (Future.chan 0) (destructorBegin readyState)).1 rfl,
   (c5_waitForTask_stop_then_ready 0 0 (Future.chan 0) readyState).2 rfl rfl⟩

/-- C8: once the stop flag has been set (as the destructor does first),
every task-execution attempt returns immediately: the state — including
the task store — is untouched and no entry is executed; a worker loop run
with any amount of fuel executes no task; and the entries resident at
shutdown are exactly the ones that were in the store, silently kept
unexecuted. -/
theorem c8_stop_discards_resident_tasks (fuel tid : Nat) (s : PoolState) :
    tryToWork tid (destructorBegin s) = (destructorBegin s, TryOutcome.stopped) ∧
    workerLoop fuel tid (destructorBegin s) = (destructorBegin s, []) ∧
    (destructorBegin s).taskQueue = s.taskQueue := by
  refine ⟨?_, ?_, rfl⟩
  · unfold tryToWork
    rw [if_pos (show (destructorBegin s).stop = true from rfl)]
  · cases fuel with
    | zero => rfl
    | succ n =>
      unfold workerLoop
      rw [if_pos (show (destructorBegin s).stop = true from rfl)]

/-- Counterexample for C2: on a non-stopped pool whose caller is at the
recursion bound, submitting an action that raises does not return an
already-complete future — the failure escapes the `addTask` call itself
(the source stores the result with a bare `set_value(f(args...))` and no
try/catch), and no result channel is ever completed. -/
theorem c2_counterexample :
    (addTask 0 0 (Except.error 7) inlineState).2 = AddResult.thrown 7 ∧
    (addTask 0 0 (Except.error 7) inlineState).1.channels 0 = none := by
  exact ⟨rfl, rfl⟩

/-- C2 (amended): on a non-stopped pool, a submission by a thread at or
above the recursion bound never enqueues (the task store is unchanged);
if the action completes normally the call executes it synchronously and
returns an already-complete future holding its value; if the action
raises, the failure propagates out of the `addTask` call itself instead
of being captured into a returned future. -/
theorem c2_inline_when_depth_reached (priority : Int) (tid : Nat) (act : Except Int Int)
    (s : PoolState) (hs : s.stop = false) (hd : s.maxRecursion ≤ s.recursionMap tid) :
    (addTask priority tid act s).1.taskQueue = s.taskQueue ∧
    (∀ v, act = Except.ok v →
      (addTask priority tid act s).2 = AddResult.ret (Future.chan s.nextChan) ∧
      futReady (addTask priority tid act s).1 (Future.chan s.nextChan) = true ∧
      futGet (addTask priority tid act s).1 (Future.chan s.nextChan) = WaitResult.value v) ∧
    (∀ e, act = Except.error e →
      (addTask priority tid act s).2 = AddResult.thrown e) := by
  have hnd : ¬(s.recursionMap tid < s.maxRecursion) := not_lt.mpr hd
  unfold addTask
  rw [hs]
  simp only [Bool.false_eq_true, if_false, hnd]
  cases act with
  | ok v =>
    refine ⟨rfl, ?_, ?_⟩
    · intro w hw
      cases hw
      exact ⟨rfl, by simp [futReady], by simp [futGet]⟩
    · intro e he
      cases he
  | error e =>
    refine ⟨rfl, ?_, ?_⟩
    · intro w hw
      cases hw
    · intro f hf
      cases hf
      exact rfl

/-- Witness for C2 (amended) on a concrete pool whose calling thread sits
at the recursion bound, with a normally-completing action. -/
theorem c2_witness :
    (addTask 2 0 (Except.ok 99) deepState).1.taskQueue = deepState.taskQueue ∧
    (∀ v, (Except.ok 99 : Except Int Int) = Except.ok v →
      (addTask 2 0 (Except.ok 99) deepState).2 = AddResult.ret (Future.chan deepState.nextChan) ∧
      futReady (addTask 2 0 (Except.ok 99) deepState).1 (Future.chan deepState.nextChan) = true ∧
      futGet (addTask 2 0 (Except.ok 99) deepState).1 (Future.chan deepState.nextChan)
        = WaitResult.value v) ∧
    (∀ e, (Except.ok 99 : Except Int Int) = Except.error e →
      (addTask 2 0 (Except.ok 99) deepState).2 = AddResult.thrown e) :=
  c2_inline_when_depth_reached 2 0 (Except.ok 99) deepState rfl (by decide)

/-- C3: the claim — identical success/failure semantics of the inline
path and the queued path — fails on the code.  Queued path: executing the
stored wrapper runs the packaged task, which captures a raised failure
into the task's own channel, re-raised only on retrieval.  Inline path:
the same raising action makes the failure escape the `addTask` call
itself on the calling thread, and no channel is ever completed. -/
theorem c3_inline_error_escapes_call :
    (execTask sampleState bugEntry).channels 0 = some (Except.error 42) ∧
    futGet (execTask sampleState bugEntry) (Future.chan 0) = WaitResult.raised 42 ∧
    (addTask 0 0 (Except.error 42) inlineState).2 = AddResult.thrown 42 ∧
    (addTask 0 0 (Except.error 42) inlineState).1.channels 0 = none := by
  exact ⟨rfl, rfl, rfl, rfl⟩

/-- Counterexample for C6: `std::thread::hardware_concurrency()` may
legally report 0; constructing the pool with workerCount 0 on such a host
yields a pool with no worker threads at all. -/
theorem c6_counterexample :
    (mkPool 0 0 5).workers.length = 0 ∧ (mkPool 0 0 5).threadNumber = 0 := by
  exact ⟨rfl, rfl⟩

/-- C6 (amended): construction with workerCount 0 falls back to the
host's reported hardware concurrency (and the default-argument call also
uses it), and the resulting pool has at least one worker provided the
host reports at least one hardware thread. -/
theorem c6_zero_workers_fallback (hc d : Nat) (h : 1 ≤ hc) :
    (mkPool 0 hc d).threadNumber = hc ∧
    (mkPool hc hc d).threadNumber = hc ∧
    (mkPool 0 hc d).workers.length = hc ∧
    1 ≤ (mkPool 0 hc d).workers.length := by
  refine ⟨rfl, ?_, ?_, ?_⟩
  · show (if hc = 0 then hc else hc) = hc
    rw [ite_self]
  · show (List.range hc).length = hc
    exact List.length_range hc
  · show 1 ≤ (List.range hc).length
    rw [List.length_range]
    exact h

/-- Witness for C6 (amended) on a host reporting four hardware threads. -/
theorem c6_witness :
    (mkPool 0 4 5).threadNumber = 4 ∧
    (mkPool 4 4 5).threadNumber = 4 ∧
    (mkPool 0 4 5).workers.length = 4 ∧
    1 ≤ (mkPool 0 4 5).workers.length :=
  c6_zero_workers_fallback 4 5 (by decide)
